import Mathlib

/-!
Verification of the football-team-season-tracker ingestion and query core.

The development shallowly embeds the repository's Python code:
- `src/ingest/load_raw.py` : `api_get`, `upsert_teams`, `upsert_matches`, `main`
- `src/ingest/config.py`   : `load_settings`
- `src/app.py`             : `query_df`

DuckDB tables with a primary key are modelled as association lists
`List (Nat × ρ)` (row order = physical insertion order); the SQL statement
`INSERT ... ON CONFLICT(key) DO UPDATE SET <every non-key column>` executed
per row by `executemany` is modelled by `upsertRow`, folded over the batch
by `upsertBatch`.  Timestamps taken from `datetime.now()` are explicit `Nat`
inputs; ISO timestamp strings are carried as the source strings (their
parsing in Python is a pure function of the string and is irrelevant to the
claims).
-/

namespace SeasonTracker

/-- A DuckDB table with a `BIGINT PRIMARY KEY`, modelled as an association
list from the natural key to the remaining columns, in physical row order. -/
abbrev Table (ρ : Type) := List (Nat × ρ)

/-- The list of primary-key values present in a table, in row order. -/
def tblKeys {ρ : Type} (T : Table ρ) : List Nat := T.map Prod.fst

/-- Whether a primary-key value is present (the `ON CONFLICT` test). -/
def hasKey {ρ : Type} (T : Table ρ) (k : Nat) : Bool := T.any (fun p => p.1 == k)

/-- Point lookup of the row stored under a primary key. -/
def tblLookup {ρ : Type} (k : Nat) (T : Table ρ) : Option ρ :=
  (T.find? (fun p => p.1 == k)).map Prod.snd

/-- One `INSERT ... ON CONFLICT(key) DO UPDATE SET` of a single row: update
in place when the key exists, append a fresh row otherwise. -/
def upsertRow {ρ : Type} (T : Table ρ) (k : Nat) (r : ρ) : Table ρ :=
  if hasKey T k then T.map (fun p => if p.1 == k then (k, r) else p)
  else T ++ [(k, r)]

/-- `executemany` of the upsert statement over a batch, row by row in order. -/
def upsertBatch {ρ : Type} (T : Table ρ) (L : List (Nat × ρ)) : Table ρ :=
  L.foldl (fun acc p => upsertRow acc p.1 p.2) T

/-- The value the last batch entry carrying a given key assigns to it
(last-write-wins inside a batch). -/
def lastAssign {ρ : Type} (L : List (Nat × ρ)) (k : Nat) : Option ρ :=
  (L.reverse.find? (fun p => p.1 == k)).map Prod.snd

/-- Project every row of a table through `e`, keeping keys and row order.
Used to compare two table states column-wise while ignoring some columns. -/
def eraseTbl {ρ ρ' : Type} (e : ρ → ρ') (T : Table ρ) : Table ρ' :=
  T.map (fun p => (p.1, e p.2))

/-! ## `src/ingest/load_raw.py` — payloads, rows and the two upserts

A team object of the `GET /competitions/{code}/teams` JSON payload, with the
fields `upsert_teams` reads: `t["id"]` (mandatory, `int(...)`) and
`t.get("name"/"shortName"/"tla"/"crest")` (optional). -/

structure TeamJson where
  id : Nat
  name : Option String
  shortName : Option String
  tla : Option String
  crest : Option String
deriving DecidableEq

/-- The teams payload; `teams = none` models a payload lacking the `"teams"`
key, for which `teams_payload.get("teams", [])` yields `[]`. -/
structure TeamsPayload where
  teams : Option (List TeamJson)
deriving DecidableEq

/-- One row of the `raw_teams` table minus its `team_id` primary key.
`fetched_at_utc` is the `datetime.now(timezone.utc)` taken at the top of
`upsert_teams`, modelled as a `Nat` timestamp. -/
structure TeamRow where
  name : Option String
  short_name : Option String
  tla : Option String
  crest : Option String
  fetched_at_utc : Nat
deriving DecidableEq

/-- The `(team_id, row)` pair `upsert_teams` builds from one payload team. -/
def teamRowOf (fetched_at : Nat) (t : TeamJson) : Nat × TeamRow :=
  (t.id, ⟨t.name, t.shortName, t.tla, t.crest, fetched_at⟩)

/-- `upsert_teams(con, teams_payload)`: build one row per payload team, return
0 touching nothing when the batch is empty, otherwise `executemany` the
`INSERT ... ON CONFLICT(team_id) DO UPDATE SET <all non-key columns>` and
return the row count. -/
def upsert_teams (fetched_at : Nat) (teams_payload : TeamsPayload)
    (raw_teams : Table TeamRow) : Nat × Table TeamRow :=
  let teams := teams_payload.teams.getD []
  let rows := teams.map (teamRowOf fetched_at)
  if rows.isEmpty then (0, raw_teams)
  else (rows.length, upsertBatch raw_teams rows)

/-- A `fullTime`/`halfTime` score object (`score.get("fullTime", {}) or {}`). -/
structure ScorePair where
  home : Option Int
  away : Option Int
deriving DecidableEq

/-- The `score` object of a match payload entry. -/
structure Score where
  fullTime : Option ScorePair
  halfTime : Option ScorePair
  winner : Option String
deriving DecidableEq

/-- A `homeTeam`/`awayTeam` object of a match payload entry. -/
structure TeamRef where
  id : Option Nat
  name : Option String
deriving DecidableEq

/-- One match object of the matches payload, with exactly the fields
`upsert_matches` reads.  `utcDate` and `lastUpdated` are ISO timestamp
strings; the Python code parses them with `datetime.fromisoformat`, a pure
function of the string, so the model carries the strings themselves. -/
structure MatchJson where
  id : Nat
  utcDate : Option String
  status : Option String
  matchday : Option Nat
  stage : Option String
  group : Option String
  homeTeam : Option TeamRef
  awayTeam : Option TeamRef
  score : Option Score
  lastUpdated : Option String
deriving DecidableEq

/-- The matches payload; `matches = none` models a payload lacking the
`"matches"` key. -/
structure MatchesPayload where
  «matches» : Option (List MatchJson)
deriving DecidableEq

/-- One row of `raw_matches` minus its `match_id` primary key.  `raw_json`
holds the original payload object verbatim (Python stores `json.dumps(m)`,
injective in `m` for the payloads at hand). -/
structure MatchRow where
  competition_code : String
  season_start_year : Nat
  utc_date : Option String
  status : Option String
  matchday : Option Nat
  stage : Option String
  group_name : Option String
  home_team_id : Option Nat
  home_team_name : Option String
  away_team_id : Option Nat
  away_team_name : Option String
  home_score_full : Option Int
  away_score_full : Option Int
  home_score_half : Option Int
  away_score_half : Option Int
  winner : Option String
  last_updated_utc : Option String
  fetched_at_utc : Nat
  raw_json : MatchJson
deriving DecidableEq

/-- The `(match_id, row)` pair `upsert_matches` builds from one payload
match, mirroring the tuple built in the Python loop body. -/
def matchRowOf (comp_code : String) (season : Nat) (fetched_at : Nat)
    (m : MatchJson) : Nat × MatchRow :=
  let score := m.score.getD ⟨none, none, none⟩
  let ft := score.fullTime.getD ⟨none, none⟩
  let ht := score.halfTime.getD ⟨none, none⟩
  let home := m.homeTeam.getD ⟨none, none⟩
  let away := m.awayTeam.getD ⟨none, none⟩
  (m.id,
    ⟨comp_code, season, m.utcDate, m.status, m.matchday, m.stage, m.group,
     home.id, home.name, away.id, away.name,
     ft.home, ft.away, ht.home, ht.away,
     score.winner, m.lastUpdated, fetched_at, m⟩)

/-- `upsert_matches(con, comp_code, season, matches_payload)`: one row per
payload match, early `return 0` on an empty batch, otherwise the
`ON CONFLICT(match_id) DO UPDATE SET <all non-key columns>` upsert. -/
def upsert_matches (comp_code : String) (season : Nat) (fetched_at : Nat)
    (matches_payload : MatchesPayload) (raw_matches : Table MatchRow) :
    Nat × Table MatchRow :=
  let ms := matches_payload.«matches».getD []
  let rows := ms.map (matchRowOf comp_code season fetched_at)
  if rows.isEmpty then (0, raw_matches)
  else (rows.length, upsertBatch raw_matches rows)

/-- The columns of a `raw_teams` row other than `fetched_at_utc`, used to
compare two table states while ignoring the fetch timestamp. -/
def eraseTeamFetch (r : TeamRow) :
    Option String × Option String × Option String × Option String :=
  (r.name, r.short_name, r.tla, r.crest)

/-- The columns of a `raw_matches` row other than `fetched_at_utc`. -/
structure MatchRowStable where
  competition_code : String
  season_start_year : Nat
  utc_date : Option String
  status : Option String
  matchday : Option Nat
  stage : Option String
  group_name : Option String
  home_team_id : Option Nat
  home_team_name : Option String
  away_team_id : Option Nat
  away_team_name : Option String
  home_score_full : Option Int
  away_score_full : Option Int
  home_score_half : Option Int
  away_score_half : Option Int
  winner : Option String
  last_updated_utc : Option String
  raw_json : MatchJson
deriving DecidableEq

/-- Drop the `fetched_at_utc` column of a `raw_matches` row. -/
def eraseMatchFetch (r : MatchRow) : MatchRowStable :=
  ⟨r.competition_code, r.season_start_year, r.utc_date, r.status, r.matchday,
   r.stage, r.group_name, r.home_team_id, r.home_team_name, r.away_team_id,
   r.away_team_name, r.home_score_full, r.away_score_full, r.home_score_half,
   r.away_score_half, r.winner, r.last_updated_utc, r.raw_json⟩

/-! ## `src/ingest/config.py` — settings loading -/

/-- The `Settings` dataclass of `config.py`. -/
structure Settings where
  token : String
  comp_code : String
  season : Nat
  team_name : String
  duckdb_path : String
deriving DecidableEq

/-- The process environment as `load_settings` reads it via `os.getenv`;
`none` models an unset variable.  `season` is carried pre-parsed (`int(...)`
of a well-formed numeric string). -/
structure Env where
  football_data_token : Option String
  comp_code : Option String
  season : Option Nat
  team_name : Option String
  duckdb_path : Option String
deriving DecidableEq

/-- Python's `str.strip()`: drop leading and trailing whitespace.  Written
over the character list so that it evaluates inside the kernel. -/
def pyStrip (s : String) : String :=
  ⟨((s.data.dropWhile Char.isWhitespace).reverse.dropWhile Char.isWhitespace).reverse⟩

/-- `load_settings()`: strip the token and fail when it is absent or empty,
otherwise build the `Settings` with the documented defaults. -/
def load_settings (env : Env) : Except String Settings :=
  let token := pyStrip (env.football_data_token.getD "")
  if token = "" then
    Except.error "FOOTBALL_DATA_TOKEN is missing. Put it in your .env or environment."
  else
    Except.ok ⟨token, pyStrip (env.comp_code.getD "ELC"), env.season.getD 2025,
      pyStrip (env.team_name.getD "Charlton Athletic"),
      pyStrip (env.duckdb_path.getD "warehouse/charlton.duckdb")⟩

/-! ## `src/ingest/load_raw.py` — `api_get` and `main` -/

/-- An upstream HTTP response as `requests.get` returns it: status code, the
raw body text, and the JSON-parsed body `resp.json()` of type `α`. -/
structure HttpResponse (α : Type) where
  status_code : Nat
  text : String
  jsonBody : α
deriving DecidableEq

/-- `api_get(path, token, params)`: raise `RuntimeError(f"API error ...")`
when `resp.status_code >= 400`, otherwise return `resp.json()`.  The raised
exception is modelled as `Except.error` carrying the exception text. -/
def api_get {α : Type} (resp : HttpResponse α) : Except String α :=
  if 400 ≤ resp.status_code then
    Except.error ("API error " ++ toString resp.status_code ++ ": " ++ resp.text)
  else
    Except.ok resp.jsonBody

/-- Status values written to `ingest_runs.status`. -/
inductive RunStatus where
  | STARTED
  | SUCCESS
  | FAILED
deriving DecidableEq

/-- One row of the `ingest_runs` table minus its `run_id` primary key
(`run_id`, a time-derived string in Python, is modelled as a `Nat` key). -/
structure IngestRunRow where
  run_ts_utc : Nat
  comp_code : String
  season : Nat
  status : RunStatus
  details : Option String
deriving DecidableEq

/-- The whole DuckDB store touched by `main`. -/
structure DB where
  ingest_runs : Table IngestRunRow
  raw_teams : Table TeamRow
  raw_matches : Table MatchRow
deriving DecidableEq

/-- The `UPDATE ingest_runs SET status=?, details=? WHERE run_id=?`
statement: rewrite status and details of every row keyed `run_id`. -/
def updateRun (runs : Table IngestRunRow) (run_id : Nat) (st : RunStatus)
    (d : Option String) : Table IngestRunRow :=
  runs.map (fun p =>
    if p.1 == run_id then (p.1, (⟨p.2.run_ts_utc, p.2.comp_code, p.2.season, st, d⟩ : IngestRunRow))
    else p)

/-- Python's character slice `s[:n]`, as used in `str(e)[:5000]`. -/
def strTruncate (s : String) (n : Nat) : String := ⟨s.data.take n⟩

/-- `main()` of `load_raw.py`, with every effectful input made explicit:
the environment, the `--full-refresh` flag, the time-derived run id and run
timestamp, the two `datetime.now()` values taken inside the upserts, the two
upstream HTTP responses, and the initial database state.  Returns the final
database state plus the outcome (`Except.error` = the exception `main`
re-raises).  The body follows the source line by line: load settings, clear
tables on full refresh, insert the STARTED audit row, fetch + upsert teams,
fetch + upsert matches, then mark the run SUCCESS; any fetch failure marks
the run FAILED with the truncated exception text and re-raises. -/
def mainIngest (env : Env) (full_refresh : Bool) (run_id run_ts : Nat)
    (tTeams tMatches : Nat) (teamsResp : HttpResponse TeamsPayload)
    (matchesResp : HttpResponse MatchesPayload) (db : DB) :
    DB × Except String (Nat × Nat) :=
  match load_settings env with
  | Except.error e => (db, Except.error e)
  | Except.ok s =>
    let db1 := if full_refresh then { db with raw_matches := [], raw_teams := [] } else db
    let db2 := { db1 with ingest_runs :=
      db1.ingest_runs ++
        [(run_id, (⟨run_ts, s.comp_code, s.season, RunStatus.STARTED, none⟩ : IngestRunRow))] }
    match api_get teamsResp with
    | Except.error e =>
      ({ db2 with ingest_runs :=
          updateRun db2.ingest_runs run_id RunStatus.FAILED (some (strTruncate e 5000)) },
       Except.error e)
    | Except.ok tp =>
      let resT := upsert_teams tTeams tp db2.raw_teams
      let db3 := { db2 with raw_teams := resT.2 }
      match api_get matchesResp with
      | Except.error e =>
        ({ db3 with ingest_runs :=
            updateRun db3.ingest_runs run_id RunStatus.FAILED (some (strTruncate e 5000)) },
         Except.error e)
      | Except.ok mp =>
        let resM := upsert_matches s.comp_code s.season tMatches mp db3.raw_matches
        let db4 := { db3 with raw_matches := resM.2 }
        let details := "teams=" ++ toString resT.1 ++ ", matches=" ++ toString resM.1
        ({ db4 with ingest_runs :=
            updateRun db4.ingest_runs run_id RunStatus.SUCCESS (some details) },
         Except.ok (resT.1, resM.1))

/-! ## `src/app.py` — the query facade -/

/-- Outcome of running a SQL statement against the store: a result set, or a
`duckdb.Error` (missing table, malformed query, ...). -/
inductive QueryOutcome (α : Type) where
  | ok (rows : List α)
  | err (msg : String)
deriving DecidableEq

/-- `query_df(sql, params, cache_seed)`: empty DataFrame when the database
file does not exist; otherwise execute and return the result, turning any
`duckdb.Error` into an empty DataFrame.  `exec` is the storage engine:
what `duckdb.connect(...).execute(sql, params).df()` would do. -/
def query_df {α : Type} (sql : String) (params : List Int) (cache_seed : Nat)
    (db_exists : Bool) (exec : String → List Int → QueryOutcome α) : List α :=
  if db_exists = false then []
  else
    match exec sql params with
    | QueryOutcome.ok rows => rows
    | QueryOutcome.err _ => []

/-! ## Derivation Engine (dbt models, not under `src/`) — spec-modelled -/

/-- Modelled from the spec: the `result` column of a derived TeamMatch row
(`fct_team_match` is a dbt model whose code is not under `src/`). -/
inductive MatchResult where
  | W
  | D
  | L
deriving DecidableEq

/-- Modelled from the spec: the standard 3/1/0 points rule. -/
def matchPoints : MatchResult → Nat
  | MatchResult.W => 3
  | MatchResult.D => 1
  | MatchResult.L => 0

/-- Modelled from the spec: one derived TeamMatch row — one row per
(team, match) for every match with a determinate result. -/
structure TeamMatchRow where
  team_id : Nat
  match_id : Nat
  matchday : Option Nat
  match_date : Option String
  is_home : Bool
  opponent_team_id : Nat
  goals_for : Int
  goals_against : Int
  result : MatchResult
  points : Nat
deriving DecidableEq

/-- Modelled from the spec: W when strictly more goals were scored than
conceded, L when strictly fewer, D on equality. -/
def resultOf (gf ga : Int) : MatchResult :=
  if ga < gf then MatchResult.W else if gf < ga then MatchResult.L else MatchResult.D

/-- Modelled from the spec: membership in the "complete" status set (at
minimum FINISHED). -/
def isFinished (r : MatchRow) : Bool := r.status == some "FINISHED"

/-- Modelled from the spec: the TeamMatch projection of one raw match —
two mirrored rows for a finished match with non-null full-time scores and
both team ids present; a malformed row (scores but missing team ids) is
skipped rather than aborting, per the spec's DataIntegrityWarning policy. -/
def teamMatchRowsOf (mid : Nat) (r : MatchRow) : List TeamMatchRow :=
  if isFinished r then
    match r.home_team_id, r.away_team_id, r.home_score_full, r.away_score_full with
    | some hid, some aid, some hs, some aw =>
      [⟨hid, mid, r.matchday, r.utc_date, true, aid, hs, aw,
        resultOf hs aw, matchPoints (resultOf hs aw)⟩,
       ⟨aid, mid, r.matchday, r.utc_date, false, hid, aw, hs,
        resultOf aw hs, matchPoints (resultOf aw hs)⟩]
    | _, _, _, _ => []
  else []

/-- Modelled from the spec: the full `fct_team_match` derivation over the
raw matches table. -/
def fct_team_match (raw_matches : Table MatchRow) : List TeamMatchRow :=
  (raw_matches.map (fun p => teamMatchRowsOf p.1 p.2)).flatten

theorem upsertBatch_nil {ρ : Type} (T : Table ρ) : upsertBatch T [] = T := rfl

theorem upsertBatch_cons {ρ : Type} (T : Table ρ) (p : Nat × ρ) (L : List (Nat × ρ)) :
    upsertBatch T (p :: L) = upsertBatch (upsertRow T p.1 p.2) L := rfl

theorem tblKeys_nil {ρ : Type} : tblKeys ([] : Table ρ) = [] := rfl

theorem tblKeys_cons {ρ : Type} (p : Nat × ρ) (T : Table ρ) :
    tblKeys (p :: T) = p.1 :: tblKeys T := rfl

theorem hasKey_nil {ρ : Type} (k : Nat) : hasKey ([] : Table ρ) k = false := rfl

theorem hasKey_cons {ρ : Type} (p : Nat × ρ) (T : Table ρ) (k : Nat) :
    hasKey (p :: T) k = (p.1 == k || hasKey T k) := by
  simp [hasKey]

theorem tblLookup_nil {ρ : Type} (k : Nat) : tblLookup k ([] : Table ρ) = none := rfl

theorem tblLookup_cons {ρ : Type} (p : Nat × ρ) (T : Table ρ) (k : Nat) :
    tblLookup k (p :: T) = if p.1 = k then some p.2 else tblLookup k T := by
  by_cases h : p.1 = k
  · rw [if_pos h]
    unfold tblLookup
    rw [List.find?_cons_of_pos _ (by simpa using h)]
    rfl
  · rw [if_neg h]
    unfold tblLookup
    rw [List.find?_cons_of_neg _ (by simpa using h)]

theorem hasKey_iff_mem {ρ : Type} (T : Table ρ) (k : Nat) :
    hasKey T k = true ↔ k ∈ tblKeys T := by
  simp [hasKey, tblKeys, List.any_eq_true, List.mem_map]

theorem tblKeys_upsertRow {ρ : Type} (T : Table ρ) (k : Nat) (r : ρ) :
    tblKeys (upsertRow T k r) = if hasKey T k then tblKeys T else tblKeys T ++ [k] := by
  unfold upsertRow
  by_cases h : hasKey T k = true
  · simp only [h, if_true, tblKeys, List.map_map]
    apply List.map_congr_left
    intro p _
    by_cases hk : p.1 = k
    · simp [hk]
    · simp [hk]
  · simp [h, tblKeys]

theorem mem_tblKeys_upsertRow_left {ρ : Type} (T : Table ρ) (k k' : Nat) (r : ρ)
    (h : k' ∈ tblKeys T) : k' ∈ tblKeys (upsertRow T k r) := by
  rw [tblKeys_upsertRow]
  by_cases hh : hasKey T k = true
  · simp [hh, h]
  · simp [hh, h]

theorem mem_tblKeys_upsertRow_self {ρ : Type} (T : Table ρ) (k : Nat) (r : ρ) :
    k ∈ tblKeys (upsertRow T k r) := by
  rw [tblKeys_upsertRow]
  by_cases hh : hasKey T k = true
  · simp only [hh, if_true]
    exact (hasKey_iff_mem T k).mp hh
  · simp [hh]

theorem tblLookup_eq_none_of_not_mem {ρ : Type} (T : Table ρ) (k : Nat)
    (h : k ∉ tblKeys T) : tblLookup k T = none := by
  induction T with
  | nil => rfl
  | cons p T ih =>
    rw [tblKeys_cons] at h
    have h1 : p.1 ≠ k := by
      intro hp
      exact h (by rw [hp] at *; exact List.mem_cons_self _ _)
    rw [tblLookup_cons, if_neg h1]
    exact ih (fun hm => h (List.mem_cons_of_mem _ hm))

theorem tblLookup_map_keyfix {ρ : Type} (T : Table ρ) (k : Nat) (r : ρ) :
    tblLookup k (T.map (fun p => if p.1 == k then (k, r) else p)) =
      if hasKey T k then some r else none := by
  induction T with
  | nil => simp [tblLookup, hasKey]
  | cons p T ih =>
    by_cases h : p.1 = k
    · simp [List.map_cons, h, tblLookup_cons, hasKey_cons]
    · simp only [List.map_cons, beq_iff_eq, h, if_false, tblLookup_cons, hasKey_cons]
      simpa [h] using ih

theorem tblLookup_append_single_self {ρ : Type} (T : Table ρ) (k : Nat) (r : ρ)
    (h : hasKey T k = false) : tblLookup k (T ++ [(k, r)]) = some r := by
  induction T with
  | nil => simp [tblLookup_cons]
  | cons p T ih =>
    rw [hasKey_cons, Bool.or_eq_false_iff] at h
    have hp : p.1 ≠ k := by simpa using h.1
    rw [List.cons_append, tblLookup_cons, if_neg hp]
    exact ih h.2

theorem tblLookup_append_single_other {ρ : Type} (T : Table ρ) (k k' : Nat) (r : ρ)
    (h : k' ≠ k) : tblLookup k' (T ++ [(k, r)]) = tblLookup k' T := by
  induction T with
  | nil =>
    show tblLookup k' [(k, r)] = tblLookup k' []
    rw [tblLookup_cons, if_neg (fun hh => h hh.symm)]
  | cons p T ih =>
    rw [List.cons_append, tblLookup_cons, tblLookup_cons]
    by_cases hp : p.1 = k'
    · simp [hp]
    · simp only [hp, if_false]
      exact ih

theorem tblLookup_map_keyfix_other {ρ : Type} (T : Table ρ) (k k' : Nat) (r : ρ)
    (h : k' ≠ k) :
    tblLookup k' (T.map (fun p => if p.1 == k then (k, r) else p)) = tblLookup k' T := by
  induction T with
  | nil => simp [tblLookup]
  | cons p T ih =>
    simp only [beq_iff_eq] at ih
    by_cases hpk : p.1 = k
    · have hkk' : k ≠ k' := fun hh => h hh.symm
      simp only [List.map_cons, beq_iff_eq, hpk, if_true, tblLookup_cons]
      rw [if_neg hkk', if_neg (by simpa [hpk] using hkk')]
      exact ih
    · simp only [List.map_cons, beq_iff_eq, hpk, if_false, tblLookup_cons]
      by_cases hpk' : p.1 = k'
      · simp [hpk']
      · simp only [hpk', if_false]
        exact ih

theorem tblLookup_upsertRow_self {ρ : Type} (T : Table ρ) (k : Nat) (r : ρ) :
    tblLookup k (upsertRow T k r) = some r := by
  unfold upsertRow
  by_cases h : hasKey T k = true
  · simp only [h, if_true]
    rw [tblLookup_map_keyfix]
    simp [h]
  · have h' : hasKey T k = false := by simpa using h
    simp only [h', Bool.false_eq_true, if_false]
    exact tblLookup_append_single_self T k r h'

theorem tblLookup_upsertRow_other {ρ : Type} (T : Table ρ) (k k' : Nat) (r : ρ)
    (h : k' ≠ k) : tblLookup k' (upsertRow T k r) = tblLookup k' T := by
  unfold upsertRow
  by_cases hh : hasKey T k = true
  · simp only [hh, if_true]
    exact tblLookup_map_keyfix_other T k k' r h
  · simp only [hh, Bool.false_eq_true, if_false]
    exact tblLookup_append_single_other T k k' r h

theorem tblLookup_upsertBatch_not_mem {ρ : Type} (L : List (Nat × ρ)) (k : Nat)
    (h : k ∉ L.map Prod.fst) : ∀ T : Table ρ, tblLookup k (upsertBatch T L) = tblLookup k T := by
  induction L with
  | nil => intro T; rfl
  | cons p L ih =>
    intro T
    rw [List.map_cons] at h
    have h1 : k ≠ p.1 := fun hk => h (by rw [hk]; exact List.mem_cons_self _ _)
    have h2 : k ∉ L.map Prod.fst := fun hm => h (List.mem_cons_of_mem _ hm)
    rw [upsertBatch_cons, ih h2, tblLookup_upsertRow_other _ _ _ _ h1]

theorem tblLookup_upsertBatch_mem {ρ : Type} (L : List (Nat × ρ)) (k : Nat)
    (h : k ∈ L.map Prod.fst) :
    ∀ T T' : Table ρ, tblLookup k (upsertBatch T L) = tblLookup k (upsertBatch T' L) := by
  induction L with
  | nil => cases h
  | cons p L ih =>
    intro T T'
    rw [upsertBatch_cons, upsertBatch_cons]
    by_cases hm : k ∈ L.map Prod.fst
    · exact ih hm _ _
    · have hk : k = p.1 := by
        rw [List.map_cons] at h
        rcases List.mem_cons.mp h with h1 | h1
        · exact h1
        · exact absurd h1 hm
      rw [tblLookup_upsertBatch_not_mem L k hm, tblLookup_upsertBatch_not_mem L k hm,
        hk, tblLookup_upsertRow_self, tblLookup_upsertRow_self]

theorem lastAssign_nil {ρ : Type} (k : Nat) : lastAssign ([] : List (Nat × ρ)) k = none := rfl

theorem lastAssign_cons {ρ : Type} (p : Nat × ρ) (L : List (Nat × ρ)) (k : Nat) :
    lastAssign (p :: L) k =
      match lastAssign L k with
      | some r => some r
      | none => if p.1 = k then some p.2 else none := by
  unfold lastAssign
  rw [List.reverse_cons, List.find?_append]
  rcases hfind : L.reverse.find? (fun q => q.1 == k) with _ | q
  · by_cases hp : p.1 = k
    · rw [List.find?_cons_of_pos _ (by simpa using hp), hfind]
      simp [hp]
    · rw [List.find?_cons_of_neg _ (by simpa using hp), hfind]
      simp [hp]
  · rw [hfind]
    simp

theorem lastAssign_eq_none_iff {ρ : Type} (L : List (Nat × ρ)) (k : Nat) :
    lastAssign L k = none ↔ k ∉ L.map Prod.fst := by
  induction L with
  | nil => simp [lastAssign]
  | cons p L ih =>
    rw [lastAssign_cons, List.map_cons]
    rcases hL : lastAssign L k with _ | r
    · have hmem : k ∉ L.map Prod.fst := ih.mp hL
      by_cases hp : p.1 = k
      · constructor
        · intro hc
          rw [if_pos hp] at hc
          exact absurd hc (by simp)
        · intro hc
          exact absurd (by rw [← hp]; exact List.mem_cons_self _ _) hc
      · constructor
        · intro _ hc
          rcases List.mem_cons.mp hc with h1 | h1
          · exact hp h1.symm
          · exact hmem h1
        · intro _
          rw [if_neg hp]
    · have hmem : k ∈ L.map Prod.fst := by
        by_contra hc
        rw [← ih] at hc
        rw [hL] at hc
        exact absurd hc (by simp)
      constructor
      · intro hc
        exact absurd hc (by simp)
      · intro hc
        exact absurd (List.mem_cons_of_mem _ hmem) hc

theorem tblLookup_upsertBatch_lastAssign {ρ : Type} (L : List (Nat × ρ)) (k : Nat) (r : ρ)
    (h : lastAssign L k = some r) :
    ∀ T : Table ρ, tblLookup k (upsertBatch T L) = some r := by
  induction L with
  | nil => exact absurd h (by simp [lastAssign])
  | cons p L ih =>
    intro T
    rw [upsertBatch_cons]
    rw [lastAssign_cons] at h
    rcases hL : lastAssign L k with _ | r'
    · rw [hL] at h
      by_cases hp : p.1 = k
      · simp only [if_pos hp] at h
        have hm : k ∉ L.map Prod.fst := (lastAssign_eq_none_iff L k).mp hL
        rw [tblLookup_upsertBatch_not_mem L k hm, ← hp, tblLookup_upsertRow_self]
        exact h
      · simp only [if_neg hp] at h
        exact absurd h (by simp)
    · rw [hL] at h
      simp only [] at h
      exact ih (hL.trans h) _

theorem tblKeys_upsertBatch_of_mem {ρ : Type} (L : List (Nat × ρ)) :
    ∀ T : Table ρ, (∀ k ∈ L.map Prod.fst, k ∈ tblKeys T) →
      tblKeys (upsertBatch T L) = tblKeys T := by
  induction L with
  | nil => intro T _; rfl
  | cons p L ih =>
    intro T h
    rw [upsertBatch_cons]
    have hp : p.1 ∈ tblKeys T := h p.1 (by rw [List.map_cons]; exact List.mem_cons_self _ _)
    have hkeys : tblKeys (upsertRow T p.1 p.2) = tblKeys T := by
      rw [tblKeys_upsertRow, if_pos ((hasKey_iff_mem T p.1).mpr hp)]
    rw [ih _ (fun k hk => by
      rw [hkeys]
      exact h k (by rw [List.map_cons]; exact List.mem_cons_of_mem _ hk)), hkeys]

theorem mem_tblKeys_upsertBatch_left {ρ : Type} (L : List (Nat × ρ)) (k : Nat) :
    ∀ T : Table ρ, k ∈ tblKeys T → k ∈ tblKeys (upsertBatch T L) := by
  induction L with
  | nil => intro T h; exact h
  | cons p L ih =>
    intro T h
    rw [upsertBatch_cons]
    exact ih _ (mem_tblKeys_upsertRow_left T p.1 k p.2 h)

theorem mem_tblKeys_upsertBatch_batch {ρ : Type} (L : List (Nat × ρ)) (k : Nat)
    (h : k ∈ L.map Prod.fst) : ∀ T : Table ρ, k ∈ tblKeys (upsertBatch T L) := by
  induction L with
  | nil => cases h
  | cons p L ih =>
    intro T
    rw [upsertBatch_cons]
    rw [List.map_cons] at h
    rcases List.mem_cons.mp h with h1 | h1
    · exact mem_tblKeys_upsertBatch_left L k _ (h1 ▸ mem_tblKeys_upsertRow_self T p.1 p.2)
    · exact ih h1 _

theorem nodup_tblKeys_upsertRow {ρ : Type} (T : Table ρ) (k : Nat) (r : ρ)
    (h : (tblKeys T).Nodup) : (tblKeys (upsertRow T k r)).Nodup := by
  rw [tblKeys_upsertRow]
  by_cases hh : hasKey T k = true
  · simpa [hh] using h
  · have hk : k ∉ tblKeys T := fun hm => hh ((hasKey_iff_mem T k).mpr hm)
    simp only [hh, Bool.false_eq_true, if_false]
    rw [List.nodup_append]
    refine ⟨h, List.nodup_singleton k, ?_⟩
    intro a ha hb
    rw [List.mem_singleton] at hb
    rw [hb] at ha
    exact hk ha

theorem nodup_tblKeys_upsertBatch {ρ : Type} (L : List (Nat × ρ)) :
    ∀ T : Table ρ, (tblKeys T).Nodup → (tblKeys (upsertBatch T L)).Nodup := by
  induction L with
  | nil => intro T h; exact h
  | cons p L ih =>
    intro T h
    rw [upsertBatch_cons]
    exact ih _ (nodup_tblKeys_upsertRow T p.1 p.2 h)

theorem tbl_ext {ρ : Type} (T₁ : Table ρ) :
    ∀ T₂ : Table ρ, tblKeys T₁ = tblKeys T₂ → (tblKeys T₁).Nodup →
      (∀ k, tblLookup k T₁ = tblLookup k T₂) → T₁ = T₂ := by
  induction T₁ with
  | nil =>
    intro T₂ hk _ _
    rcases T₂ with _ | ⟨q, T₂⟩
    · rfl
    · exact absurd hk.symm (by simp [tblKeys])
  | cons p T₁ ih =>
    intro T₂ hk hnd hl
    rcases T₂ with _ | ⟨q, T₂⟩
    · exact absurd hk (by simp [tblKeys])
    · rw [tblKeys_cons, tblKeys_cons] at hk
      have hkey : p.1 = q.1 := (List.cons.injEq _ _ _ _ ▸ hk).1
      have htkeys : tblKeys T₁ = tblKeys T₂ := (List.cons.injEq _ _ _ _ ▸ hk).2
      have hval : p.2 = q.2 := by
        have := hl p.1
        rw [tblLookup_cons, tblLookup_cons, if_pos rfl, if_pos hkey.symm] at this
        exact Option.some.inj this
      have hnd1 : (tblKeys T₁).Nodup := (List.nodup_cons.mp (tblKeys_cons p T₁ ▸ hnd)).2
      have hnotmem : p.1 ∉ tblKeys T₁ := (List.nodup_cons.mp (tblKeys_cons p T₁ ▸ hnd)).1
      have htail : ∀ k, tblLookup k T₁ = tblLookup k T₂ := by
        intro k
        by_cases hkp : k = p.1
        · rw [hkp]
          rw [tblLookup_eq_none_of_not_mem _ _ hnotmem,
            tblLookup_eq_none_of_not_mem _ _ (htkeys ▸ hnotmem)]
        · have := hl k
          rw [tblLookup_cons, tblLookup_cons, if_neg (fun hh => hkp hh.symm),
            if_neg (fun hh => hkp (hh.symm.trans hkey.symm))] at this
          exact this
      have : p = q := Prod.ext hkey hval
      rw [this, ih T₂ htkeys hnd1 htail]

theorem upsertBatch_idem {ρ : Type} (T : Table ρ) (L : List (Nat × ρ))
    (h : (tblKeys T).Nodup) : upsertBatch (upsertBatch T L) L = upsertBatch T L := by
  apply tbl_ext
  · exact tblKeys_upsertBatch_of_mem L _ (fun k hk => mem_tblKeys_upsertBatch_batch L k hk T)
  · exact nodup_tblKeys_upsertBatch L _ (nodup_tblKeys_upsertBatch L T h)
  · intro k
    by_cases hm : k ∈ L.map Prod.fst
    · exact tblLookup_upsertBatch_mem L k hm _ _
    · rw [tblLookup_upsertBatch_not_mem L k hm]

theorem tblKeys_eraseTbl {ρ ρ' : Type} (e : ρ → ρ') (T : Table ρ) :
    tblKeys (eraseTbl e T) = tblKeys T := by
  simp only [tblKeys, eraseTbl, List.map_map]
  rfl

theorem length_eraseTbl {ρ ρ' : Type} (e : ρ → ρ') (T : Table ρ) :
    (eraseTbl e T).length = T.length := by
  simp [eraseTbl]

theorem hasKey_eraseTbl {ρ ρ' : Type} (e : ρ → ρ') (T : Table ρ) (k : Nat) :
    hasKey (eraseTbl e T) k = hasKey T k := by
  induction T with
  | nil => rfl
  | cons p T ih =>
    show (((p.1, e p.2).1 == k) || hasKey (eraseTbl e T) k) = ((p.1 == k) || hasKey T k)
    rw [ih]

theorem eraseTbl_upsertRow {ρ ρ' : Type} (e : ρ → ρ') (T : Table ρ) (k : Nat) (r : ρ) :
    eraseTbl e (upsertRow T k r) = upsertRow (eraseTbl e T) k (e r) := by
  unfold upsertRow
  rw [hasKey_eraseTbl]
  by_cases h : hasKey T k = true
  · simp only [h, if_true, eraseTbl, List.map_map]
    apply List.map_congr_left
    intro p _
    by_cases hp : p.1 = k
    · simp [hp]
    · simp [hp]
  · simp [h, eraseTbl]

theorem eraseTbl_upsertBatch {ρ ρ' : Type} (e : ρ → ρ') (L : List (Nat × ρ)) :
    ∀ T : Table ρ,
      eraseTbl e (upsertBatch T L) =
        upsertBatch (eraseTbl e T) (L.map (fun p => (p.1, e p.2))) := by
  induction L with
  | nil => intro T; rfl
  | cons p L ih =>
    intro T
    rw [upsertBatch_cons, List.map_cons, upsertBatch_cons, ih, eraseTbl_upsertRow]

theorem upsert_teams_snd (t : Nat) (p : TeamsPayload) (T : Table TeamRow) :
    (upsert_teams t p T).2 = upsertBatch T ((p.teams.getD []).map (teamRowOf t)) := by
  unfold upsert_teams
  rcases h : (p.teams.getD []).map (teamRowOf t) with _ | ⟨r, rs⟩
  · simp [h, upsertBatch]
  · simp [h]

theorem upsert_teams_fst (t : Nat) (p : TeamsPayload) (T : Table TeamRow) :
    (upsert_teams t p T).1 = ((p.teams.getD []).map (teamRowOf t)).length := by
  unfold upsert_teams
  rcases h : (p.teams.getD []).map (teamRowOf t) with _ | ⟨r, rs⟩
  · simp [h]
  · simp [h]

theorem upsert_matches_snd (cc : String) (sy t : Nat) (q : MatchesPayload)
    (M : Table MatchRow) :
    (upsert_matches cc sy t q M).2 =
      upsertBatch M ((q.«matches».getD []).map (matchRowOf cc sy t)) := by
  unfold upsert_matches
  rcases h : (q.«matches».getD []).map (matchRowOf cc sy t) with _ | ⟨r, rs⟩
  · simp [h, upsertBatch]
  · simp [h]

theorem upsert_matches_fst (cc : String) (sy t : Nat) (q : MatchesPayload)
    (M : Table MatchRow) :
    (upsert_matches cc sy t q M).1 =
      ((q.«matches».getD []).map (matchRowOf cc sy t)).length := by
  unfold upsert_matches
  rcases h : (q.«matches».getD []).map (matchRowOf cc sy t) with _ | ⟨r, rs⟩
  · simp [h]
  · simp [h]

theorem upsertBatch_erase_idem {ρ ρ' : Type} (e : ρ → ρ') (T : Table ρ)
    (L1 L2 : List (Nat × ρ)) (hT : (tblKeys T).Nodup)
    (heq : L2.map (fun p => (p.1, e p.2)) = L1.map (fun p => (p.1, e p.2))) :
    eraseTbl e (upsertBatch (upsertBatch T L1) L2) = eraseTbl e (upsertBatch T L1) := by
  rw [eraseTbl_upsertBatch e L2 (upsertBatch T L1), eraseTbl_upsertBatch e L1 T, heq]
  exact upsertBatch_idem _ _ (by rw [tblKeys_eraseTbl]; exact hT)

/-- C10: a call of `upsert_teams` or `upsert_matches` whose payload lacks the
`"teams"`/`"matches"` key or carries an empty record list returns 0 and
leaves the corresponding table completely unchanged (the Python functions
`return 0` before any `executemany`). -/
theorem claim_C10 (t : Nat) (p : TeamsPayload) (T : Table TeamRow)
    (cc : String) (sy tm : Nat) (q : MatchesPayload) (M : Table MatchRow) :
    ((p.teams = none ∨ p.teams = some []) → upsert_teams t p T = (0, T)) ∧
    ((q.«matches» = none ∨ q.«matches» = some []) →
      upsert_matches cc sy tm q M = (0, M)) := by
  constructor
  · rintro (h | h) <;> simp [upsert_teams, h]
  · rintro (h | h) <;> simp [upsert_matches, h]

/-- C10 witness: concrete empty-payload calls. -/
theorem claim_C10_witness :
    upsert_teams 0 ⟨none⟩ [] = (0, []) ∧
      upsert_matches "ELC" 2025 0 ⟨some []⟩ [] = (0, []) :=
  ⟨(claim_C10 0 ⟨none⟩ [] "ELC" 2025 0 ⟨some []⟩ []).1 (Or.inl rfl),
   (claim_C10 0 ⟨none⟩ [] "ELC" 2025 0 ⟨some []⟩ []).2 (Or.inr rfl)⟩

/-- C2: for every batch passed to `upsert_teams` or `upsert_matches`, a key
carried by the batch ends up mapped to the full incoming row (the last batch
entry for that key — last-write-wins; every non-key column is overwritten,
nothing is merged, and a key absent from the table is inserted), while a key
not carried by the batch keeps exactly the row it had before. -/
theorem claim_C2 (t : Nat) (p : TeamsPayload) (T : Table TeamRow)
    (cc : String) (sy tm : Nat) (q : MatchesPayload) (M : Table MatchRow) :
    (∀ k r, lastAssign ((p.teams.getD []).map (teamRowOf t)) k = some r →
        tblLookup k (upsert_teams t p T).2 = some r) ∧
    (∀ k, k ∉ ((p.teams.getD []).map (teamRowOf t)).map Prod.fst →
        tblLookup k (upsert_teams t p T).2 = tblLookup k T) ∧
    (∀ k r, lastAssign ((q.«matches».getD []).map (matchRowOf cc sy tm)) k = some r →
        tblLookup k (upsert_matches cc sy tm q M).2 = some r) ∧
    (∀ k, k ∉ ((q.«matches».getD []).map (matchRowOf cc sy tm)).map Prod.fst →
        tblLookup k (upsert_matches cc sy tm q M).2 = tblLookup k M) := by
  refine ⟨?_, ?_, ?_, ?_⟩
  · intro k r h
    rw [upsert_teams_snd]
    exact tblLookup_upsertBatch_lastAssign _ _ _ h T
  · intro k h
    rw [upsert_teams_snd]
    exact tblLookup_upsertBatch_not_mem _ _ h T
  · intro k r h
    rw [upsert_matches_snd]
    exact tblLookup_upsertBatch_lastAssign _ _ _ h M
  · intro k h
    rw [upsert_matches_snd]
    exact tblLookup_upsertBatch_not_mem _ _ h M

/-- C2 witness: a concrete one-team batch inserts team 7, leaves absent key 9
alone; a concrete one-match batch inserts match 3, leaves absent key 9 alone. -/
theorem claim_C2_witness :
    (tblLookup 7 (upsert_teams 0 ⟨some [⟨7, none, none, none, none⟩]⟩ []).2 =
        some ⟨none, none, none, none, 0⟩) ∧
    (tblLookup 9 (upsert_teams 0 ⟨some [⟨7, none, none, none, none⟩]⟩ []).2 =
        tblLookup 9 ([] : Table TeamRow)) ∧
    (tblLookup 3 (upsert_matches "ELC" 2025 1
          ⟨some [⟨3, none, none, none, none, none, none, none, none, none⟩]⟩ []).2 =
        some (matchRowOf "ELC" 2025 1
          ⟨3, none, none, none, none, none, none, none, none, none⟩).2) ∧
    (tblLookup 9 (upsert_matches "ELC" 2025 1
          ⟨some [⟨3, none, none, none, none, none, none, none, none, none⟩]⟩ []).2 =
        tblLookup 9 ([] : Table MatchRow)) :=
  ⟨(claim_C2 0 ⟨some [⟨7, none, none, none, none⟩]⟩ [] "ELC" 2025 1
      ⟨some [⟨3, none, none, none, none, none, none, none, none, none⟩]⟩ []).1
      7 ⟨none, none, none, none, 0⟩ rfl,
   (claim_C2 0 ⟨some [⟨7, none, none, none, none⟩]⟩ [] "ELC" 2025 1
      ⟨some [⟨3, none, none, none, none, none, none, none, none, none⟩]⟩ []).2.1
      9 (by decide),
   (claim_C2 0 ⟨some [⟨7, none, none, none, none⟩]⟩ [] "ELC" 2025 1
      ⟨some [⟨3, none, none, none, none, none, none, none, none, none⟩]⟩ []).2.2.1
      3 (matchRowOf "ELC" 2025 1 ⟨3, none, none, none, none, none, none, none, none, none⟩).2
      rfl,
   (claim_C2 0 ⟨some [⟨7, none, none, none, none⟩]⟩ [] "ELC" 2025 1
      ⟨some [⟨3, none, none, none, none, none, none, none, none, none⟩]⟩ []).2.2.2
      9 (by decide)⟩

/-- C1 counterexample: ingesting the same one-team payload twice does NOT
leave `raw_teams` with column values identical to a single ingestion — the
second call's `datetime.now()` overwrites the `fetched_at_utc` column (here
fetch times 0 and 1), so the claim as stated fails. -/
theorem claim_C1_counterexample :
    (upsert_teams 1 ⟨some [⟨1, none, none, none, none⟩]⟩
        (upsert_teams 0 ⟨some [⟨1, none, none, none, none⟩]⟩ []).2).2 ≠
      (upsert_teams 0 ⟨some [⟨1, none, none, none, none⟩]⟩ []).2 := by
  decide

/-- C1 (amended): re-running `upsert_teams` and `upsert_matches` with the
same payloads leaves `raw_teams` and `raw_matches` with identical row
counts, identical upsert return counts, and identical values in every
column except `fetched_at_utc` (which records the later fetch time); when
the two runs carry the same fetch timestamp the final states are fully
identical — re-ingestion is a pure overwrite, never an append. -/
theorem claim_C1_amended (t1 t2 : Nat) (p : TeamsPayload) (T : Table TeamRow)
    (cc : String) (sy : Nat) (u1 u2 : Nat) (q : MatchesPayload) (M : Table MatchRow)
    (hT : (tblKeys T).Nodup) (hM : (tblKeys M).Nodup) :
    ((upsert_teams t2 p (upsert_teams t1 p T).2).2.length =
        (upsert_teams t1 p T).2.length ∧
      eraseTbl eraseTeamFetch (upsert_teams t2 p (upsert_teams t1 p T).2).2 =
        eraseTbl eraseTeamFetch (upsert_teams t1 p T).2 ∧
      (upsert_teams t2 p (upsert_teams t1 p T).2).1 = (upsert_teams t1 p T).1 ∧
      (t2 = t1 →
        (upsert_teams t2 p (upsert_teams t1 p T).2).2 = (upsert_teams t1 p T).2)) ∧
    ((upsert_matches cc sy u2 q (upsert_matches cc sy u1 q M).2).2.length =
        (upsert_matches cc sy u1 q M).2.length ∧
      eraseTbl eraseMatchFetch (upsert_matches cc sy u2 q (upsert_matches cc sy u1 q M).2).2 =
        eraseTbl eraseMatchFetch (upsert_matches cc sy u1 q M).2 ∧
      (upsert_matches cc sy u2 q (upsert_matches cc sy u1 q M).2).1 =
        (upsert_matches cc sy u1 q M).1 ∧
      (u2 = u1 →
        (upsert_matches cc sy u2 q (upsert_matches cc sy u1 q M).2).2 =
          (upsert_matches cc sy u1 q M).2)) := by
  have heqT : ((p.teams.getD []).map (teamRowOf t2)).map
        (fun pr => (pr.1, eraseTeamFetch pr.2)) =
      ((p.teams.getD []).map (teamRowOf t1)).map
        (fun pr => (pr.1, eraseTeamFetch pr.2)) := by
    rw [List.map_map, List.map_map]
    rfl
  have heraseT : eraseTbl eraseTeamFetch (upsert_teams t2 p (upsert_teams t1 p T).2).2 =
      eraseTbl eraseTeamFetch (upsert_teams t1 p T).2 := by
    rw [upsert_teams_snd t1, upsert_teams_snd t2]
    exact upsertBatch_erase_idem eraseTeamFetch T _ _ hT heqT
  have heqM : ((q.«matches».getD []).map (matchRowOf cc sy u2)).map
        (fun pr => (pr.1, eraseMatchFetch pr.2)) =
      ((q.«matches».getD []).map (matchRowOf cc sy u1)).map
        (fun pr => (pr.1, eraseMatchFetch pr.2)) := by
    rw [List.map_map, List.map_map]
    rfl
  have heraseM : eraseTbl eraseMatchFetch
        (upsert_matches cc sy u2 q (upsert_matches cc sy u1 q M).2).2 =
      eraseTbl eraseMatchFetch (upsert_matches cc sy u1 q M).2 := by
    rw [upsert_matches_snd cc sy u1, upsert_matches_snd cc sy u2]
    exact upsertBatch_erase_idem eraseMatchFetch M _ _ hM heqM
  refine ⟨⟨?_, heraseT, ?_, ?_⟩, ⟨?_, heraseM, ?_, ?_⟩⟩
  · have h2 := congrArg List.length heraseT
    rw [length_eraseTbl, length_eraseTbl] at h2
    exact h2
  · rw [upsert_teams_fst, upsert_teams_fst, List.length_map, List.length_map]
  · intro h
    rw [h, upsert_teams_snd t1, upsert_teams_snd t1]
    exact upsertBatch_idem T _ hT
  · have h2 := congrArg List.length heraseM
    rw [length_eraseTbl, length_eraseTbl] at h2
    exact h2
  · rw [upsert_matches_fst, upsert_matches_fst, List.length_map, List.length_map]
  · intro h
    rw [h, upsert_matches_snd cc sy u1, upsert_matches_snd cc sy u1]
    exact upsertBatch_idem M _ hM

/-- C1 witness: the amended statement at a concrete payload, empty initial
tables and fetch times 0 and 1. -/
theorem claim_C1_witness :
    ((upsert_teams 1 ⟨some [⟨1, none, none, none, none⟩]⟩
          (upsert_teams 0 ⟨some [⟨1, none, none, none, none⟩]⟩ []).2).2.length =
        (upsert_teams 0 ⟨some [⟨1, none, none, none, none⟩]⟩ []).2.length ∧
      eraseTbl eraseTeamFetch (upsert_teams 1 ⟨some [⟨1, none, none, none, none⟩]⟩
          (upsert_teams 0 ⟨some [⟨1, none, none, none, none⟩]⟩ []).2).2 =
        eraseTbl eraseTeamFetch (upsert_teams 0 ⟨some [⟨1, none, none, none, none⟩]⟩ []).2 ∧
      (upsert_teams 1 ⟨some [⟨1, none, none, none, none⟩]⟩
          (upsert_teams 0 ⟨some [⟨1, none, none, none, none⟩]⟩ []).2).1 =
        (upsert_teams 0 ⟨some [⟨1, none, none, none, none⟩]⟩ []).1 ∧
      ((1 : Nat) = 0 →
        (upsert_teams 1 ⟨some [⟨1, none, none, none, none⟩]⟩
            (upsert_teams 0 ⟨some [⟨1, none, none, none, none⟩]⟩ []).2).2 =
          (upsert_teams 0 ⟨some [⟨1, none, none, none, none⟩]⟩ []).2)) ∧
    ((upsert_matches "ELC" 2025 1 ⟨some []⟩
          (upsert_matches "ELC" 2025 0 ⟨some []⟩ []).2).2.length =
        (upsert_matches "ELC" 2025 0 ⟨some []⟩ []).2.length ∧
      eraseTbl eraseMatchFetch (upsert_matches "ELC" 2025 1 ⟨some []⟩
          (upsert_matches "ELC" 2025 0 ⟨some []⟩ []).2).2 =
        eraseTbl eraseMatchFetch (upsert_matches "ELC" 2025 0 ⟨some []⟩ []).2 ∧
      (upsert_matches "ELC" 2025 1 ⟨some []⟩
          (upsert_matches "ELC" 2025 0 ⟨some []⟩ []).2).1 =
        (upsert_matches "ELC" 2025 0 ⟨some []⟩ []).1 ∧
      ((1 : Nat) = 0 →
        (upsert_matches "ELC" 2025 1 ⟨some []⟩
            (upsert_matches "ELC" 2025 0 ⟨some []⟩ []).2).2 =
          (upsert_matches "ELC" 2025 0 ⟨some []⟩ []).2)) :=
  claim_C1_amended 0 1 ⟨some [⟨1, none, none, none, none⟩]⟩ [] "ELC" 2025 0 1
    ⟨some []⟩ [] (by decide) (by decide)

/-- C5 counterexample: a 301 response is not a 2xx success, yet `api_get`
returns the parsed body without raising — the code only raises for
`status_code >= 400`, not for every non-2xx status. -/
theorem claim_C5_counterexample :
    ((301 : Nat) < 200 ∨ (300 : Nat) ≤ 301) ∧
      api_get (⟨301, "Moved Permanently", (⟨none⟩ : TeamsPayload)⟩ :
          HttpResponse TeamsPayload) =
        Except.ok (⟨none⟩ : TeamsPayload) :=
  ⟨Or.inr (by decide), rfl⟩

/-- C5 (amended): for every upstream response with status `>= 400`,
`api_get` raises an error whose text carries the status code and the
response body verbatim; for every response with status `< 400` it returns
the parsed JSON body without raising. -/
theorem claim_C5_amended {α : Type} (resp : HttpResponse α) :
    (400 ≤ resp.status_code →
      api_get resp =
        Except.error ("API error " ++ toString resp.status_code ++ ": " ++ resp.text)) ∧
    (resp.status_code < 400 → api_get resp = Except.ok resp.jsonBody) := by
  constructor
  · intro h
    unfold api_get
    rw [if_pos h]
  · intro h
    unfold api_get
    rw [if_neg (by omega)]

/-- C5 witness: a concrete 404 raises with code and body in the message; a
concrete 200 returns the body. -/
theorem claim_C5_witness :
    api_get (⟨404, "Not Found", (⟨none⟩ : TeamsPayload)⟩ : HttpResponse TeamsPayload) =
        Except.error ("API error " ++ toString (404 : Nat) ++ ": " ++ "Not Found") ∧
      api_get (⟨200, "", (⟨none⟩ : TeamsPayload)⟩ : HttpResponse TeamsPayload) =
        Except.ok (⟨none⟩ : TeamsPayload) :=
  ⟨(claim_C5_amended ⟨404, "Not Found", (⟨none⟩ : TeamsPayload)⟩).1 (by decide),
   (claim_C5_amended ⟨200, "", (⟨none⟩ : TeamsPayload)⟩).2 (by decide)⟩

/-- C6: with the access token absent or empty (after stripping),
`load_settings` fails with the configuration error, and `mainIngest` with
that environment returns the same error with the database untouched — no
audit row, no fetch consumed, no upsert applied. -/
theorem claim_C6 (env : Env)
    (h : pyStrip (env.football_data_token.getD "") = "") :
    load_settings env =
        Except.error "FOOTBALL_DATA_TOKEN is missing. Put it in your .env or environment." ∧
      ∀ (full_refresh : Bool) (run_id run_ts tT tM : Nat)
        (tr : HttpResponse TeamsPayload) (mr : HttpResponse MatchesPayload) (db : DB),
        mainIngest env full_refresh run_id run_ts tT tM tr mr db =
          (db, Except.error
            "FOOTBALL_DATA_TOKEN is missing. Put it in your .env or environment.") := by
  have hl : load_settings env =
      Except.error "FOOTBALL_DATA_TOKEN is missing. Put it in your .env or environment." := by
    unfold load_settings
    rw [h]
    rfl
  refine ⟨hl, ?_⟩
  intro full_refresh run_id run_ts tT tM tr mr db
  unfold mainIngest
  rw [hl]

/-- C6 witness: the fully unset environment. -/
theorem claim_C6_witness :
    load_settings ⟨none, none, none, none, none⟩ =
        Except.error "FOOTBALL_DATA_TOKEN is missing. Put it in your .env or environment." ∧
      mainIngest ⟨none, none, none, none, none⟩ false 1 2 3 4
          ⟨200, "", ⟨none⟩⟩ ⟨200, "", ⟨none⟩⟩ ⟨[], [], []⟩ =
        (⟨[], [], []⟩,
          Except.error
            "FOOTBALL_DATA_TOKEN is missing. Put it in your .env or environment.") :=
  ⟨(claim_C6 ⟨none, none, none, none, none⟩ (by decide)).1,
   (claim_C6 ⟨none, none, none, none, none⟩ (by decide)).2 false 1 2 3 4
     ⟨200, "", ⟨none⟩⟩ ⟨200, "", ⟨none⟩⟩ ⟨[], [], []⟩⟩

/-- C7: `query_df` is total and returns an empty result instead of raising
whenever the database file is missing or the storage engine reports any
error (missing table, malformed query, ...); when the file exists and the
query succeeds it returns the engine's rows. -/
theorem claim_C7 {α : Type} (sql : String) (params : List Int) (cache_seed : Nat)
    (db_exists : Bool) (exec : String → List Int → QueryOutcome α) :
    (db_exists = false → query_df sql params cache_seed db_exists exec = []) ∧
    (∀ m, exec sql params = QueryOutcome.err m →
      query_df sql params cache_seed db_exists exec = []) ∧
    (∀ rows, db_exists = true → exec sql params = QueryOutcome.ok rows →
      query_df sql params cache_seed db_exists exec = rows) := by
  refine ⟨?_, ?_, ?_⟩
  · intro h
    simp [query_df, h]
  · intro m h
    rcases db_exists with _ | _
    · simp [query_df]
    · simp [query_df, h]
  · intro rows hd h
    simp [query_df, hd, h]

/-- C7 witness: a failing engine yields an empty result both with and
without the database file; a succeeding engine yields its rows. -/
theorem claim_C7_witness :
    (query_df "select 1" [] 0 false (fun _ _ => (QueryOutcome.err "no file" : QueryOutcome Int)) = []) ∧
    (query_df "select 1" [] 0 true (fun _ _ => (QueryOutcome.err "no such table" : QueryOutcome Int)) = []) ∧
    (query_df "select 1" [] 0 true (fun _ _ => QueryOutcome.ok ([7] : List Int)) = [7]) :=
  ⟨(claim_C7 "select 1" [] 0 false (fun _ _ => (QueryOutcome.err "no file" : QueryOutcome Int))).1 rfl,
   (claim_C7 "select 1" [] 0 true (fun _ _ => (QueryOutcome.err "no such table" : QueryOutcome Int))).2.1
     "no such table" rfl,
   (claim_C7 "select 1" [] 0 true (fun _ _ => QueryOutcome.ok ([7] : List Int))).2.2 [7] rfl rfl⟩

theorem strTruncate_length_le (s : String) (n : Nat) : (strTruncate s n).length ≤ n := by
  show (s.data.take n).length ≤ n
  rw [List.length_take]
  exact min_le_left _ _

theorem updateRun_append_fresh (runs : Table IngestRunRow) (run_id : Nat)
    (row : IngestRunRow) (st : RunStatus) (d : Option String)
    (h : run_id ∉ tblKeys runs) :
    updateRun (runs ++ [(run_id, row)]) run_id st d =
      runs ++ [(run_id, ⟨row.run_ts_utc, row.comp_code, row.season, st, d⟩)] := by
  unfold updateRun
  rw [List.map_append]
  have h1 : runs.map (fun p =>
      if p.1 == run_id then (p.1, (⟨p.2.run_ts_utc, p.2.comp_code, p.2.season, st, d⟩ : IngestRunRow))
      else p) = runs := by
    conv_rhs => rw [← List.map_id runs]
    apply List.map_congr_left
    intro p hp
    have hne : p.1 ≠ run_id := by
      intro hh
      exact h (by rw [← hh]; exact List.mem_map.mpr ⟨p, hp, rfl⟩)
    simp [hne]
  rw [h1]
  simp

/-- C3: on the success path (settings load, both fetches succeed), an
ingestion invocation appends exactly one audit row to `ingest_runs` — the
row inserted STARTED at entry and updated in place under the same `run_id` —
whose final status is SUCCESS and whose details string is
`"teams=<n>, matches=<m>"` with `n`, `m` the counts returned by the team and
match upserts, performed in that order; the invocation returns those counts. -/
theorem claim_C3 (env : Env) (s : Settings) (full_refresh : Bool)
    (run_id run_ts tT tM : Nat) (tr : HttpResponse TeamsPayload)
    (mr : HttpResponse MatchesPayload) (db : DB)
    (hs : load_settings env = Except.ok s)
    (h1 : tr.status_code < 400) (h2 : mr.status_code < 400)
    (hfresh : run_id ∉ tblKeys db.ingest_runs) :
    (mainIngest env full_refresh run_id run_ts tT tM tr mr db).2 =
        Except.ok
          ((upsert_teams tT tr.jsonBody (if full_refresh then [] else db.raw_teams)).1,
           (upsert_matches s.comp_code s.season tM mr.jsonBody
              (if full_refresh then [] else db.raw_matches)).1) ∧
      (mainIngest env full_refresh run_id run_ts tT tM tr mr db).1.ingest_runs =
        db.ingest_runs ++
          [(run_id, ⟨run_ts, s.comp_code, s.season, RunStatus.SUCCESS,
            some ("teams=" ++
              toString (upsert_teams tT tr.jsonBody
                (if full_refresh then [] else db.raw_teams)).1 ++
              ", matches=" ++
              toString (upsert_matches s.comp_code s.season tM mr.jsonBody
                (if full_refresh then [] else db.raw_matches)).1)⟩)] := by
  have hT : api_get tr = Except.ok tr.jsonBody := by
    unfold api_get
    rw [if_neg (by omega)]
  have hM : api_get mr = Except.ok mr.jsonBody := by
    unfold api_get
    rw [if_neg (by omega)]
  cases full_refresh with
  | false =>
    simp only [mainIngest, hs, hT, hM, Bool.false_eq_true, if_false]
    exact ⟨by trivial, updateRun_append_fresh db.ingest_runs run_id _ _ _ hfresh⟩
  | true =>
    simp only [mainIngest, hs, hT, hM, if_true]
    exact ⟨by trivial, updateRun_append_fresh db.ingest_runs run_id _ _ _ hfresh⟩

/-- C3 witness: a concrete successful run, one team and zero matches. -/
theorem claim_C3_witness :
    (mainIngest ⟨some "tok", none, none, none, none⟩ false 1 2 3 4
          ⟨200, "", ⟨some [⟨7, none, none, none, none⟩]⟩⟩
          ⟨200, "", ⟨some []⟩⟩ ⟨[], [], []⟩).2 =
        Except.ok
          ((upsert_teams 3 (⟨200, "", ⟨some [⟨7, none, none, none, none⟩]⟩⟩ :
                HttpResponse TeamsPayload).jsonBody
              (if false then [] else (⟨[], [], []⟩ : DB).raw_teams)).1,
           (upsert_matches "ELC" 2025 4 (⟨200, "", ⟨some []⟩⟩ :
                HttpResponse MatchesPayload).jsonBody
              (if false then [] else (⟨[], [], []⟩ : DB).raw_matches)).1) ∧
      (mainIngest ⟨some "tok", none, none, none, none⟩ false 1 2 3 4
          ⟨200, "", ⟨some [⟨7, none, none, none, none⟩]⟩⟩
          ⟨200, "", ⟨some []⟩⟩ ⟨[], [], []⟩).1.ingest_runs =
        ([] : Table IngestRunRow) ++
          [(1, ⟨2, "ELC", 2025, RunStatus.SUCCESS,
            some ("teams=" ++
              toString (upsert_teams 3 (⟨200, "", ⟨some [⟨7, none, none, none, none⟩]⟩⟩ :
                  HttpResponse TeamsPayload).jsonBody
                (if false then [] else (⟨[], [], []⟩ : DB).raw_teams)).1 ++
              ", matches=" ++
              toString (upsert_matches "ELC" 2025 4 (⟨200, "", ⟨some []⟩⟩ :
                  HttpResponse MatchesPayload).jsonBody
                (if false then [] else (⟨[], [], []⟩ : DB).raw_matches)).1)⟩)] :=
  claim_C3 ⟨some "tok", none, none, none, none⟩
    ⟨"tok", "ELC", 2025, "Charlton Athletic", "warehouse/charlton.duckdb"⟩
    false 1 2 3 4 ⟨200, "", ⟨some [⟨7, none, none, none, none⟩]⟩⟩ ⟨200, "", ⟨some []⟩⟩
    ⟨[], [], []⟩ rfl (by decide) (by decide) (List.not_mem_nil 1)

/-- C4: with settings loaded, if either fetch raises (status `>= 400`), the
audit row is updated in place to FAILED with details equal to the exception
text truncated to at most 5000 characters, and the same exception is
re-raised to the caller. -/
theorem claim_C4 (env : Env) (s : Settings) (full_refresh : Bool)
    (run_id run_ts tT tM : Nat) (tr : HttpResponse TeamsPayload)
    (mr : HttpResponse MatchesPayload) (db : DB)
    (hs : load_settings env = Except.ok s)
    (hfresh : run_id ∉ tblKeys db.ingest_runs) :
    (400 ≤ tr.status_code →
      (mainIngest env full_refresh run_id run_ts tT tM tr mr db).2 =
          Except.error ("API error " ++ toString tr.status_code ++ ": " ++ tr.text) ∧
        (mainIngest env full_refresh run_id run_ts tT tM tr mr db).1.ingest_runs =
          db.ingest_runs ++
            [(run_id, ⟨run_ts, s.comp_code, s.season, RunStatus.FAILED,
              some (strTruncate
                ("API error " ++ toString tr.status_code ++ ": " ++ tr.text) 5000)⟩)] ∧
        (strTruncate ("API error " ++ toString tr.status_code ++ ": " ++ tr.text)
          5000).length ≤ 5000) ∧
    (tr.status_code < 400 → 400 ≤ mr.status_code →
      (mainIngest env full_refresh run_id run_ts tT tM tr mr db).2 =
          Except.error ("API error " ++ toString mr.status_code ++ ": " ++ mr.text) ∧
        (mainIngest env full_refresh run_id run_ts tT tM tr mr db).1.ingest_runs =
          db.ingest_runs ++
            [(run_id, ⟨run_ts, s.comp_code, s.season, RunStatus.FAILED,
              some (strTruncate
                ("API error " ++ toString mr.status_code ++ ": " ++ mr.text) 5000)⟩)] ∧
        (strTruncate ("API error " ++ toString mr.status_code ++ ": " ++ mr.text)
          5000).length ≤ 5000) := by
  constructor
  · intro h
    have hT : api_get tr =
        Except.error ("API error " ++ toString tr.status_code ++ ": " ++ tr.text) := by
      unfold api_get
      rw [if_pos h]
    cases full_refresh with
    | false =>
      simp only [mainIngest, hs, hT, Bool.false_eq_true, if_false]
      exact ⟨by trivial, updateRun_append_fresh db.ingest_runs run_id _ _ _ hfresh,
        strTruncate_length_le _ _⟩
    | true =>
      simp only [mainIngest, hs, hT, if_true]
      exact ⟨by trivial, updateRun_append_fresh db.ingest_runs run_id _ _ _ hfresh,
        strTruncate_length_le _ _⟩
  · intro h1 h2
    have hT : api_get tr = Except.ok tr.jsonBody := by
      unfold api_get
      rw [if_neg (by omega)]
    have hM : api_get mr =
        Except.error ("API error " ++ toString mr.status_code ++ ": " ++ mr.text) := by
      unfold api_get
      rw [if_pos h2]
    cases full_refresh with
    | false =>
      simp only [mainIngest, hs, hT, hM, Bool.false_eq_true, if_false]
      exact ⟨by trivial, updateRun_append_fresh db.ingest_runs run_id _ _ _ hfresh,
        strTruncate_length_le _ _⟩
    | true =>
      simp only [mainIngest, hs, hT, hM, if_true]
      exact ⟨by trivial, updateRun_append_fresh db.ingest_runs run_id _ _ _ hfresh,
        strTruncate_length_le _ _⟩

/-- C4 witness: a concrete run whose team fetch answers 403. -/
theorem claim_C4_witness :
    (mainIngest ⟨some "tok", none, none, none, none⟩ false 1 2 3 4
          ⟨403, "forbidden", ⟨none⟩⟩ ⟨200, "", ⟨some []⟩⟩ ⟨[], [], []⟩).2 =
        Except.error ("API error " ++ toString (403 : Nat) ++ ": " ++ "forbidden") ∧
      (mainIngest ⟨some "tok", none, none, none, none⟩ false 1 2 3 4
          ⟨403, "forbidden", ⟨none⟩⟩ ⟨200, "", ⟨some []⟩⟩ ⟨[], [], []⟩).1.ingest_runs =
        ([] : Table IngestRunRow) ++
          [(1, ⟨2, "ELC", 2025, RunStatus.FAILED,
            some (strTruncate
              ("API error " ++ toString (403 : Nat) ++ ": " ++ "forbidden") 5000)⟩)] ∧
      (strTruncate ("API error " ++ toString (403 : Nat) ++ ": " ++ "forbidden")
        5000).length ≤ 5000 :=
  (claim_C4 ⟨some "tok", none, none, none, none⟩
    ⟨"tok", "ELC", 2025, "Charlton Athletic", "warehouse/charlton.duckdb"⟩
    false 1 2 3 4 ⟨403, "forbidden", ⟨none⟩⟩ ⟨200, "", ⟨some []⟩⟩
    ⟨[], [], []⟩ rfl (List.not_mem_nil 1)).1 (by decide)

/-- C8: when settings load and the team fetch and upsert complete but the
match fetch fails, the team rows already written remain in `raw_teams` (the
final state of `raw_teams` is exactly the applied teams batch), `raw_matches`
is untouched, and the error is re-raised — no rollback of the teams batch. -/
theorem claim_C8 (env : Env) (s : Settings) (run_id run_ts tT tM : Nat)
    (tr : HttpResponse TeamsPayload) (mr : HttpResponse MatchesPayload) (db : DB)
    (hs : load_settings env = Except.ok s)
    (h1 : tr.status_code < 400) (h2 : 400 ≤ mr.status_code) :
    (mainIngest env false run_id run_ts tT tM tr mr db).1.raw_teams =
        (upsert_teams tT tr.jsonBody db.raw_teams).2 ∧
      (mainIngest env false run_id run_ts tT tM tr mr db).1.raw_matches =
        db.raw_matches ∧
      (mainIngest env false run_id run_ts tT tM tr mr db).2 =
        Except.error ("API error " ++ toString mr.status_code ++ ": " ++ mr.text) := by
  have hT : api_get tr = Except.ok tr.jsonBody := by
    unfold api_get
    rw [if_neg (by omega)]
  have hM : api_get mr =
      Except.error ("API error " ++ toString mr.status_code ++ ": " ++ mr.text) := by
    unfold api_get
    rw [if_pos h2]
  simp only [mainIngest, hs, hT, hM, Bool.false_eq_true, if_false]
  refine ⟨?_, ?_, ?_⟩ <;> trivial

/-- C8 witness: a concrete run where one team is written and the match fetch
answers 500. -/
theorem claim_C8_witness :
    (mainIngest ⟨some "tok", none, none, none, none⟩ false 1 2 3 4
          ⟨200, "", ⟨some [⟨7, none, none, none, none⟩]⟩⟩
          ⟨500, "boom", ⟨none⟩⟩ ⟨[], [], []⟩).1.raw_teams =
        (upsert_teams 3 (⟨200, "", ⟨some [⟨7, none, none, none, none⟩]⟩⟩ :
            HttpResponse TeamsPayload).jsonBody
          (⟨[], [], []⟩ : DB).raw_teams).2 ∧
      (mainIngest ⟨some "tok", none, none, none, none⟩ false 1 2 3 4
          ⟨200, "", ⟨some [⟨7, none, none, none, none⟩]⟩⟩
          ⟨500, "boom", ⟨none⟩⟩ ⟨[], [], []⟩).1.raw_matches =
        (⟨[], [], []⟩ : DB).raw_matches ∧
      (mainIngest ⟨some "tok", none, none, none, none⟩ false 1 2 3 4
          ⟨200, "", ⟨some [⟨7, none, none, none, none⟩]⟩⟩
          ⟨500, "boom", ⟨none⟩⟩ ⟨[], [], []⟩).2 =
        Except.error ("API error " ++ toString (500 : Nat) ++ ": " ++ "boom") :=
  claim_C8 ⟨some "tok", none, none, none, none⟩
    ⟨"tok", "ELC", 2025, "Charlton Athletic", "warehouse/charlton.duckdb"⟩
    1 2 3 4 ⟨200, "", ⟨some [⟨7, none, none, none, none⟩]⟩⟩ ⟨500, "boom", ⟨none⟩⟩
    ⟨[], [], []⟩ rfl (by decide) (by decide)

theorem resultOf_facts (a b : Int) :
    (resultOf a b = MatchResult.W ↔ resultOf b a = MatchResult.L) ∧
    (resultOf a b = MatchResult.D ↔ resultOf b a = MatchResult.D) ∧
    (resultOf a b = MatchResult.L ↔ resultOf b a = MatchResult.W) ∧
    matchPoints (resultOf a b) + matchPoints (resultOf b a) ≤ 6 ∧
    (resultOf a b = MatchResult.D →
      matchPoints (resultOf a b) + matchPoints (resultOf b a) = 2) := by
  rcases lt_trichotomy a b with h | h | h
  · have h1 : ¬ b < a := not_lt.mpr h.le
    simp [resultOf, matchPoints, h, h1]
  · rw [h]
    simp [resultOf, matchPoints, lt_irrefl]
  · have h1 : ¬ a < b := not_lt.mpr h.le
    simp [resultOf, matchPoints, h, h1]

/-- C9: for every finished match with non-null full-time scores (and both
team ids present — per the spec a scored match missing a team id is a
malformed row that derivation skips), the TeamMatch projection produces
exactly two rows: goals_for/goals_against swapped between them, results
complementary (home W iff away L, home D iff away D, home L iff away W),
points summing to at most 6, and a draw summing to exactly 2. -/
theorem claim_C9 (mid : Nat) (r : MatchRow) (hid aid : Nat) (gh ga : Int)
    (hstat : r.status = some "FINISHED")
    (hhome : r.home_team_id = some hid) (haway : r.away_team_id = some aid)
    (hgh : r.home_score_full = some gh) (hga : r.away_score_full = some ga) :
    ∃ rH rA : TeamMatchRow,
      teamMatchRowsOf mid r = [rH, rA] ∧
      rH.team_id = hid ∧ rA.team_id = aid ∧ rH.is_home = true ∧ rA.is_home = false ∧
      rH.goals_for = rA.goals_against ∧ rH.goals_against = rA.goals_for ∧
      (rH.result = MatchResult.W ↔ rA.result = MatchResult.L) ∧
      (rH.result = MatchResult.D ↔ rA.result = MatchResult.D) ∧
      (rH.result = MatchResult.L ↔ rA.result = MatchResult.W) ∧
      rH.points + rA.points ≤ 6 ∧
      (rH.result = MatchResult.D → rH.points + rA.points = 2) := by
  refine ⟨⟨hid, mid, r.matchday, r.utc_date, true, aid, gh, ga,
      resultOf gh ga, matchPoints (resultOf gh ga)⟩,
    ⟨aid, mid, r.matchday, r.utc_date, false, hid, ga, gh,
      resultOf ga gh, matchPoints (resultOf ga gh)⟩,
    ?_, rfl, rfl, rfl, rfl, rfl, rfl,
    (resultOf_facts gh ga).1, (resultOf_facts gh ga).2.1, (resultOf_facts gh ga).2.2.1,
    (resultOf_facts gh ga).2.2.2.1, (resultOf_facts gh ga).2.2.2.2⟩
  unfold teamMatchRowsOf
  have hfin : isFinished r = true := by
    unfold isFinished
    rw [hstat]
    rfl
  rw [if_pos hfin, hhome, haway, hgh, hga]

/-- C9 witness: a concrete finished match, home winning 2-1. -/
theorem claim_C9_witness :
    ∃ rH rA : TeamMatchRow,
      teamMatchRowsOf 10
          ⟨"ELC", 2025, some "2025-08-09T14:00:00Z", some "FINISHED", some 1,
            none, none, some 7, some "Home FC", some 8, some "Away FC",
            some 2, some 1, some 1, some 0, some "HOME_TEAM", none, 0,
            ⟨10, none, none, none, none, none, none, none, none, none⟩⟩ = [rH, rA] ∧
      rH.team_id = 7 ∧ rA.team_id = 8 ∧ rH.is_home = true ∧ rA.is_home = false ∧
      rH.goals_for = rA.goals_against ∧ rH.goals_against = rA.goals_for ∧
      (rH.result = MatchResult.W ↔ rA.result = MatchResult.L) ∧
      (rH.result = MatchResult.D ↔ rA.result = MatchResult.D) ∧
      (rH.result = MatchResult.L ↔ rA.result = MatchResult.W) ∧
      rH.points + rA.points ≤ 6 ∧
      (rH.result = MatchResult.D → rH.points + rA.points = 2) :=
  claim_C9 10
    ⟨"ELC", 2025, some "2025-08-09T14:00:00Z", some "FINISHED", some 1,
      none, none, some 7, some "Home FC", some 8, some "Away FC",
      some 2, some 1, some 1, some 0, some "HOME_TEAM", none, 0,
      ⟨10, none, none, none, none, none, none, none, none, none⟩⟩
    7 8 2 1 rfl rfl rfl rfl rfl

end SeasonTracker
